import Mathlib

/-!
Shallow embedding of the appliance-placement engine of this repository
(placement_solver.py).  Coordinates are exact rationals.  The 2D geometry
primitives that the source delegates to the shapely library (polygon
containment, intersection, distance, buffering, segment length) are
abstracted as a GeomKernel record, following the specification, which
treats the geometry kernel as an external capability with a fixed
contract.  A concrete axis-aligned kernel (boxKernel) instantiates the
record for evaluation on concrete inputs.
-/


/-- A 2D point with rational coordinates. -/
abbrev Pt : Type := ℚ × ℚ

/-- A polygon, given by its ordered vertex list (shapely Polygon). -/
abbrev Polygon : Type := List Pt

/-- A line segment, given by its two endpoints (shapely LineString). -/
abbrev Seg : Type := Pt × Pt

/-- Abstract 2D geometry kernel: the shapely operations used by the solver.
containsPoly A B is A.contains(B) for polygons, containsPoint A p is
A.contains(Point p), intersects is polygon intersection, distToSeg is
rect.distance(wall), bufferSeg is LineString.buffer, and segLength is the
Euclidean length of a segment. -/
structure GeomKernel where
  containsPoly : Polygon → Polygon → Bool
  containsPoint : Polygon → Pt → Bool
  intersects : Polygon → Polygon → Bool
  distToSeg : Polygon → Seg → ℚ
  bufferSeg : Seg → ℚ → Polygon
  segLength : Pt → Pt → ℚ

/-- Item record (dataclass Item in the source). -/
structure Item where
  name : String
  length : ℚ
  width : ℚ
  item_type : String
deriving DecidableEq, Repr

/-- Area of an item (Item.get_area in the source). -/
def Item.get_area (i : Item) : ℚ := i.length * i.width

/-- Committed placement record (dataclass Placement in the source). -/
structure Placement where
  item : Item
  center : Pt
  rotation : ℕ
deriving DecidableEq, Repr

/-- Category priority table: the dict priority used by the sort key in
parse items, with default 4 for unknown categories. -/
def priorityOf (t : String) : ℕ :=
  if t = "fridge" then 0
  else if t = "iceMaker" then 1
  else if t = "shelf" then 2
  else if t = "overShelf" then 3
  else 4

/-- Structural test that the first character list starts the second, the
semantics of the Python str.startswith test on the underlying characters. -/
def strStartsWith : List Char → List Char → Bool
  | [], _ => true
  | _ :: _, [] => false
  | c :: cs, d :: ds => c = d && strStartsWith cs ds

/-- Category of an item from its name, exactly the startswith chain in
parse items. -/
def itemTypeOf (n : String) : String :=
  if strStartsWith ("fridge").data n.data then "fridge"
  else if strStartsWith ("iceMaker").data n.data then "iceMaker"
  else if strStartsWith ("overShelf").data n.data then "overShelf"
  else if strStartsWith ("shelf").data n.data then "shelf"
  else "unknown"

/-- Sort-key comparison of parse items: ascending lexicographic order on the
key tuple (category priority, minus area). -/
def sortRel (a b : Item) : Prop :=
  priorityOf a.item_type < priorityOf b.item_type ∨
    (priorityOf a.item_type = priorityOf b.item_type ∧ -a.get_area ≤ -b.get_area)

instance (a b : Item) : Decidable (sortRel a b) :=
  inferInstanceAs (Decidable (priorityOf a.item_type < priorityOf b.item_type ∨
    (priorityOf a.item_type = priorityOf b.item_type ∧ -a.get_area ≤ -b.get_area)))

/-- Item parsing and sorting (parse items in the source).  The source sorts
with the stable Python list sort on the key tuple; a stable sort for a total
decidable preorder is unique, so it is modelled by insertion sort. -/
def parseItems (itemsDict : List (String × ℚ × ℚ)) : List Item :=
  let items := itemsDict.map (fun e => Item.mk e.1 e.2.1 e.2.2 (itemTypeOf e.1))
  items.insertionSort sortRel

/-- Door forbidden zone (calculate door zone in the source).  An absent door
or a door list with fewer than two points yields none.  For an inward-opening
door the source divides the door vector by the door width w and later scales
by w again; the normalisation cancels exactly, so the zone corners are written
in the cancelled form.  The division raises a ZeroDivisionError in the source
exactly when the two door points coincide (w = 0); that evaluation failure is
modelled as Except.error.  For an outward-opening door the door segment is
buffered by the fixed clearance 100. -/
def calculateDoorZone (G : GeomKernel) (door : List Pt) (isOpenInward : Bool) :
    Except Unit (Option Polygon) :=
  match door with
  | p1 :: p2 :: _ =>
      let dx := p2.1 - p1.1
      let dy := p2.2 - p1.2
      if isOpenInward then
        if dx = 0 ∧ dy = 0 then Except.error ()
        else Except.ok (some [p1, p2, (p2.1 - dy, p2.2 + dx), (p1.1 - dy, p1.2 + dx)])
      else Except.ok (some (G.bufferSeg (p1, p2) 100))
  | _ => Except.ok none

/-- Wall segments (extract walls in the source): consecutive boundary
vertices, wrap-around included. -/
def extractWalls (bps : List Pt) : List Seg :=
  bps.zip (bps.rotate 1)

/-- Axis-aligned rectangle of an item at a pose (create rectangle in the
source): rotation 0 keeps length along x and width along y, any other
rotation (the source only ever passes 0 or 90) swaps them. -/
def createRectangle (center : Pt) (length width : ℚ) (rotation : ℕ) : Polygon :=
  let cx := center.1
  let cy := center.2
  if rotation = 0 then
    [(cx - length / 2, cy - width / 2), (cx + length / 2, cy - width / 2),
     (cx + length / 2, cy + width / 2), (cx - length / 2, cy + width / 2)]
  else
    [(cx - width / 2, cy - length / 2), (cx + width / 2, cy - length / 2),
     (cx + width / 2, cy + length / 2), (cx - width / 2, cy + length / 2)]

/-- Occupied rectangle of a committed placement. -/
def rectOf (pl : Placement) : Polygon :=
  createRectangle pl.center pl.item.length pl.item.width pl.rotation

/-- Validity check (is valid placement in the source): full containment in
the room, no intersection with the door zone, with any already placed
rectangle, or with any existing fridge zone.  The source guards the door-zone
check with the truthiness of the zone object, which is a None test (an empty
zone region intersects nothing in real geometry, so the some case is checked
unconditionally). -/
def isValidPlacement (G : GeomKernel) (boundary : Polygon) (dz : Option Polygon)
    (placedPolys : List Polygon) (fridgeZones : List Polygon)
    (center : Pt) (item : Item) (rotation : ℕ) : Bool :=
  let rect := createRectangle center item.length item.width rotation
  G.containsPoly boundary rect &&
    (match dz with
     | some z => !(G.intersects rect z)
     | none => true) &&
    placedPolys.all (fun p => !(G.intersects rect p)) &&
    fridgeZones.all (fun z => !(G.intersects rect z))

/-- numpy arange over rationals: start, start + step, ... strictly below
stop. -/
def arange (start stop step : ℚ) : List ℚ :=
  (List.range (⌈(stop - start) / step⌉).toNat).map (fun i => start + (i : ℚ) * step)

/-- Wall-adjacent candidate poses for one wall (generate wall positions in
the source): sample points along the wall at step min(100, length/20)
clamped to at least 1; at each sample try both rotations, skip a rotation
whose footprint along the wall would run past either wall end, and offset
the centre from the wall point along the inward perpendicular by half the
item depth. -/
def generateWallPositions (G : GeomKernel) (wall : Seg) (item : Item) :
    List (Pt × ℕ) :=
  let p1 := wall.1
  let p2 := wall.2
  let wallLength := G.segLength p1 p2
  let dx := p2.1 - p1.1
  let dy := p2.2 - p1.2
  let step := max (min 100 (wallLength / 20)) 1
  ((arange 0 wallLength step).map (fun dist =>
    let t := dist / wallLength
    let wallX := p1.1 + t * dx
    let wallY := p1.2 + t * dy
    let perpX := -dy / wallLength
    let perpY := dx / wallLength
    ([0, 90] : List ℕ).filterMap (fun rotation =>
      let offset := if rotation = 0 then item.width / 2 else item.length / 2
      let lengthAlongWall := if rotation = 0 then item.length else item.width
      if dist + lengthAlongWall / 2 > wallLength ∨ dist - lengthAlongWall / 2 < 0 then
        none
      else
        some ((wallX + perpX * offset, wallY + perpY * offset), rotation)))).flatten

/-- Smallest element of a rational list, with a default for the empty list. -/
def listMinD (l : List ℚ) (dflt : ℚ) : ℚ :=
  match l with
  | [] => dflt
  | a :: r => r.foldl min a

/-- Largest element of a rational list, with a default for the empty list. -/
def listMaxD (l : List ℚ) (dflt : ℚ) : ℚ :=
  match l with
  | [] => dflt
  | a :: r => r.foldl max a

/-- Interior grid candidate poses (generate interior positions in the
source): a grid of step 200 over the bounding box of the boundary, keeping
the points strictly inside the room, each at both rotations.  The source
unpacks the shapely bounds of the boundary polygon, which presumes a
nonempty boundary (the data model guarantees at least three vertices); the
defaults only keep the definition total. -/
def generateInteriorPositions (G : GeomKernel) (boundary : Polygon) :
    List (Pt × ℕ) :=
  let xs := boundary.map Prod.fst
  let ys := boundary.map Prod.snd
  let minx := listMinD xs 0
  let maxx := listMaxD xs 0
  let miny := listMinD ys 0
  let maxy := listMaxD ys 0
  ((arange minx maxx 200).map (fun x =>
    ((arange miny maxy 200).map (fun y =>
      if G.containsPoint boundary (x, y) then
        [((x, y), (0 : ℕ)), ((x, y), (90 : ℕ))]
      else [])).flatten)).flatten

/-- Position score (calculate position score in the source): fold over the
walls accumulating the touching-wall count (distance strictly below the
tolerance 10) and the running minimum wall distance, then combine them as
count times 10000 minus the minimum.  The running minimum starts at float
infinity in the source; Option none models that initial value (it survives
only when the wall list is empty, i.e. only for an empty boundary). -/
def calculatePositionScore (G : GeomKernel) (walls : List Seg)
    (center : Pt) (item : Item) (rotation : ℕ) : ℚ :=
  let rect := createRectangle center item.length item.width rotation
  let acc := walls.foldl (fun (a : ℕ × Option ℚ) w =>
    let d := G.distToSeg rect w
    ((if d < 10 then a.1 + 1 else a.1),
      some (match a.2 with
            | none => d
            | some m => min m d))) ((0 : ℕ), (none : Option ℚ))
  (acc.1 : ℚ) * 10000 - (match acc.2 with
    | some m => m
    | none => 0)

/-- Fridge clearance zone (calculate fridge door zone in the source): none
unless the item category is fridge; otherwise a rectangle of depth
1.0 times the width attached to the right edge at rotation 0 and to the
top edge at rotation 90. -/
def calculateFridgeDoorZone (pl : Placement) : Option Polygon :=
  if pl.item.item_type = "fridge" then
    let cx := pl.center.1
    let cy := pl.center.2
    let length := pl.item.length
    let width := pl.item.width
    let doorClearance := width * 1
    if pl.rotation = 0 then
      some [(cx + length / 2, cy - width / 2),
            (cx + length / 2 + doorClearance, cy - width / 2),
            (cx + length / 2 + doorClearance, cy + width / 2),
            (cx + length / 2, cy + width / 2)]
    else
      some [(cx - length / 2, cy + width / 2),
            (cx + length / 2, cy + width / 2),
            (cx + length / 2, cy + width / 2 + doorClearance),
            (cx - length / 2, cy + width / 2 + doorClearance)]
  else none

/-- Result of a solve run: feasibility flag, committed placements in commit
order, and the message that is present only for the infeasible outcome. -/
structure SolveResult where
  feasible : Bool
  placements : List Placement
  message : Option String
deriving DecidableEq, Repr

/-- Full candidate pool for one item: all wall candidates, wall by wall,
followed by all interior candidates, with no deduplication. -/
def candidatesFor (G : GeomKernel) (boundary : Polygon) (walls : List Seg)
    (item : Item) : List (Pt × ℕ) :=
  (walls.map (fun w => generateWallPositions G w item)).flatten
    ++ generateInteriorPositions G boundary

/-- Scored valid candidates for one item in a given obstacle state: the
filter-and-score step of the solve loop. -/
def validPositionsFor (G : GeomKernel) (boundary : Polygon) (walls : List Seg)
    (dz : Option Polygon) (placedPolys fridgeZones : List Polygon) (item : Item) :
    List (ℚ × Pt × ℕ) :=
  (candidatesFor G boundary walls item).filterMap (fun cr =>
    if isValidPlacement G boundary dz placedPolys fridgeZones cr.1 item cr.2 then
      some (calculatePositionScore G walls cr.1 item cr.2, cr.1, cr.2)
    else none)

/-- Selection of the best scored candidate: the source sorts descending by
score with the stable Python sort and takes the head, so the earliest
candidate among those of maximal score wins. -/
def selectBest (v : ℚ × Pt × ℕ) (vs : List (ℚ × Pt × ℕ)) : ℚ × Pt × ℕ :=
  vs.foldl (fun acc x => if acc.1 < x.1 then x else acc) v

/-- The greedy commit loop of solve, threading the append-only session
state: committed placements, their occupied rectangles, and the fridge
zones.  A fridge zone is appended only after the fridge itself is
committed.  The source guards the append with the truthiness of the zone
object, a None test (the zone of a fridge is None only when the item is not
a fridge, which the outer category test already excludes). -/
def solveLoop (G : GeomKernel) (boundary : Polygon) (walls : List Seg)
    (dz : Option Polygon) :
    List Item → List Placement → List Polygon → List Polygon → SolveResult
  | [], ps, _, _ => SolveResult.mk true ps none
  | item :: rest, ps, placed, zones =>
    match validPositionsFor G boundary walls dz placed zones item with
    | [] => SolveResult.mk false ps (some ("无法摆放物品: " ++ item.name))
    | v :: vs =>
      let best := selectBest v vs
      let pl := Placement.mk item best.2.1 best.2.2
      let placedRect := createRectangle best.2.1 item.length item.width best.2.2
      let newZones := zones ++
        (if item.item_type = "fridge" then
          (match calculateFridgeDoorZone pl with
           | some z => [z]
           | none => [])
         else [])
      solveLoop G boundary walls dz rest (ps ++ [pl]) (placed ++ [placedRect]) newZones

/-- Top-level solve (PlacementSolver construction plus solve in the source):
parse and sort the items, compute the door zone (which can fail with a
ZeroDivisionError for an inward-opening zero-width door), extract the
walls, and run the commit loop from the empty session state. -/
def solveP (G : GeomKernel) (boundary : Polygon) (door : List Pt)
    (isOpenInward : Bool) (itemsDict : List (String × ℚ × ℚ)) :
    Except Unit SolveResult :=
  match calculateDoorZone G door isOpenInward with
  | Except.error e => Except.error e
  | Except.ok dz =>
      Except.ok (solveLoop G boundary (extractWalls boundary) dz
        (parseItems itemsDict) [] [] [])

/-- Smallest x coordinate of a polygon. -/
def polyMinX (p : Polygon) : ℚ := listMinD (p.map Prod.fst) 0

/-- Largest x coordinate of a polygon. -/
def polyMaxX (p : Polygon) : ℚ := listMaxD (p.map Prod.fst) 0

/-- Smallest y coordinate of a polygon. -/
def polyMinY (p : Polygon) : ℚ := listMinD (p.map Prod.snd) 0

/-- Largest y coordinate of a polygon. -/
def polyMaxY (p : Polygon) : ℚ := listMaxD (p.map Prod.snd) 0

/-- Concrete geometry kernel for axis-aligned boxes, used to evaluate the
solver on concrete inputs: containment and intersection by bounding boxes,
the Chebyshev (L-infinity) distance between boxes, the L-infinity buffer of
a segment, and the L-infinity segment length.  On the axis-aligned rooms,
rectangles and walls of the concrete runs below these agree with the
Euclidean primitives. -/
def boxKernel : GeomKernel where
  containsPoly := fun a b => decide (a ≠ [] ∧ b ≠ [] ∧
    polyMinX a ≤ polyMinX b ∧ polyMaxX b ≤ polyMaxX a ∧
    polyMinY a ≤ polyMinY b ∧ polyMaxY b ≤ polyMaxY a)
  containsPoint := fun a q => decide (a ≠ [] ∧
    polyMinX a < q.1 ∧ q.1 < polyMaxX a ∧ polyMinY a < q.2 ∧ q.2 < polyMaxY a)
  intersects := fun a b => decide (a ≠ [] ∧ b ≠ [] ∧
    polyMinX a ≤ polyMaxX b ∧ polyMinX b ≤ polyMaxX a ∧
    polyMinY a ≤ polyMaxY b ∧ polyMinY b ≤ polyMaxY a)
  distToSeg := fun a s =>
    let b := [s.1, s.2]
    max (max 0 (max (polyMinX a - polyMaxX b) (polyMinX b - polyMaxX a)))
      (max 0 (max (polyMinY a - polyMaxY b) (polyMinY b - polyMaxY a)))
  bufferSeg := fun s d =>
    let b := [s.1, s.2]
    [(polyMinX b - d, polyMinY b - d), (polyMaxX b + d, polyMinY b - d),
     (polyMaxX b + d, polyMaxY b + d), (polyMinX b - d, polyMaxY b + d)]
  segLength := fun p q => max |q.1 - p.1| |q.2 - p.2|

/-- The safety conditions maintained for the list of committed placements:
containment in the room, door-zone avoidance, pairwise non-overlap in check
order (each later rectangle checked against each earlier one), and avoidance
of the clearance zones of previously committed fridges. -/
def committedOk (G : GeomKernel) (boundary : Polygon) (dz : Option Polygon)
    (ps : List Placement) : Prop :=
  (∀ pl ∈ ps, G.containsPoly boundary (rectOf pl) = true) ∧
  (∀ pl ∈ ps, ∀ z, dz = some z → G.intersects (rectOf pl) z = false) ∧
  List.Pairwise (fun a b => G.intersects (rectOf b) (rectOf a) = false) ps ∧
  List.Pairwise (fun a b => ∀ z, calculateFridgeDoorZone a = some z →
    G.intersects (rectOf b) z = false) ps

/-- Touching-wall count of a candidate pose: the number of wall segments
whose distance to the candidate rectangle is strictly within the 10-unit
tolerance. -/
def touchingWallCount (G : GeomKernel) (walls : List Seg) (center : Pt)
    (item : Item) (rotation : ℕ) : ℕ :=
  ((walls.map (fun w =>
    G.distToSeg (createRectangle center item.length item.width rotation) w)).filter
      (fun d => decide (d < 10))).length

/-- Minimum wall distance of a candidate pose over all walls. -/
def minWallDistance (G : GeomKernel) (walls : List Seg) (center : Pt)
    (item : Item) (rotation : ℕ) : ℚ :=
  listMinD (walls.map (fun w =>
    G.distToSeg (createRectangle center item.length item.width rotation) w)) 0

/-- Axis-aligned rectangle between given bounds, vertices listed
counterclockwise from the lower-left corner, as the specification states the
fridge zone. -/
def rectFromBounds (x0 x1 y0 y1 : ℚ) : Polygon :=
  [(x0, y0), (x1, y0), (x1, y1), (x0, y1)]

/-- Concrete witness room: a 10 by 10 square, counterclockwise. -/
def wBoundary : Polygon := [(0, 0), (10, 0), (10, 10), (0, 10)]

/-- Concrete witness door on the bottom wall. -/
def wDoor : List Pt := [(4, 0), (6, 0)]

/-- Concrete witness catalog: a fridge and a shelf. -/
def wItems : List (String × ℚ × ℚ) := [("fridge1", 4, 4), ("shelf1", 2, 2)]

/-- The parsed fridge of the witness catalog. -/
def wFridgeItem : Item := Item.mk ("fridge1") 4 4 ("fridge")

/-- The parsed shelf of the witness catalog. -/
def wShelfItem : Item := Item.mk ("shelf1") 2 2 ("shelf")

/-- First committed placement of the witness run. -/
def wPl1 : Placement := Placement.mk wFridgeItem (8, 5) 0

/-- Second committed placement of the witness run. -/
def wPl2 : Placement := Placement.mk wShelfItem (1, 1) 0

/-- Result of the witness run: both items placed. -/
def wResult : SolveResult := SolveResult.mk true [wPl1, wPl2] none

/-- The inward door zone of the witness run. -/
def wDoorZone : Polygon := [(4, 0), (6, 0), (6, 2), (4, 2)]

/-- The clearance zone of the committed witness fridge. -/
def wFridgeZone : Polygon := [(10, 3), (14, 3), (14, 7), (10, 7)]

/-- Witness catalog whose only item cannot fit the room. -/
def wItems2 : List (String × ℚ × ℚ) := [("shelf1", 50, 50)]

/-- Result of the infeasible witness run. -/
def wResult2 : SolveResult := SolveResult.mk false [] (some ("无法摆放物品: shelf1"))

/-- Walls of a 40 by 40 square room, for the scoring witness. -/
def wWalls : List Seg := extractWalls [(0, 0), (40, 0), (40, 40), (0, 40)]

/-- An 8 by 8 shelf for the scoring witness. -/
def wShelf8 : Item := Item.mk ("shelf1") 8 8 ("shelf")

instance : IsTotal Item sortRel := by
  constructor
  intro a b
  unfold sortRel
  rcases lt_trichotomy (priorityOf a.item_type) (priorityOf b.item_type) with h | h | h
  · exact Or.inl (Or.inl h)
  · rcases le_total (-a.get_area) (-b.get_area) with ha | ha
    · exact Or.inl (Or.inr ⟨h, ha⟩)
    · exact Or.inr (Or.inr ⟨h.symm, ha⟩)
  · exact Or.inr (Or.inl h)

instance : IsTrans Item sortRel := by
  constructor
  intro a b c hab hbc
  unfold sortRel at hab hbc ⊢
  rcases hab with h1 | ⟨h1, h1a⟩ <;> rcases hbc with h2 | ⟨h2, h2a⟩
  · exact Or.inl (h1.trans h2)
  · exact Or.inl (h2 ▸ h1)
  · exact Or.inl (h1 ▸ h2)
  · exact Or.inr ⟨h1.trans h2, h1a.trans h2a⟩

theorem selectBest_mem (v : ℚ × Pt × ℕ) (vs : List (ℚ × Pt × ℕ)) :
    selectBest v vs ∈ v :: vs := by
  induction vs generalizing v with
  | nil => simp [selectBest]
  | cons x t ih =>
      have h := ih (if v.1 < x.1 then x else v)
      unfold selectBest at h ⊢
      rw [List.foldl_cons]
      rcases List.mem_cons.mp h with h1 | h2
      · rw [h1]
        split <;> simp
      · simp [h2]

theorem isValidPlacement_eq_true {G : GeomKernel} {boundary : Polygon}
    {dz : Option Polygon} {placed zones : List Polygon} {c : Pt} {item : Item}
    {rot : ℕ} (h : isValidPlacement G boundary dz placed zones c item rot = true) :
    G.containsPoly boundary (createRectangle c item.length item.width rot) = true ∧
    (∀ z, dz = some z →
      G.intersects (createRectangle c item.length item.width rot) z = false) ∧
    (∀ p ∈ placed,
      G.intersects (createRectangle c item.length item.width rot) p = false) ∧
    (∀ z ∈ zones,
      G.intersects (createRectangle c item.length item.width rot) z = false) := by
  unfold isValidPlacement at h
  simp only [Bool.and_eq_true, List.all_eq_true] at h
  obtain ⟨⟨⟨h1, h2⟩, h3⟩, h4⟩ := h
  refine ⟨h1, fun z hz => ?_, fun p hp => ?_, fun z hz => ?_⟩
  · subst hz; simpa using h2
  · simpa using h3 p hp
  · simpa using h4 z hz

theorem fridgeZoneAppend (item : Item) (c : Pt) (rot : ℕ) :
    (if item.item_type = "fridge" then
      (match calculateFridgeDoorZone (Placement.mk item c rot) with
       | some z => [z]
       | none => [])
     else ([] : List Polygon)) =
      List.filterMap calculateFridgeDoorZone [Placement.mk item c rot] := by
  by_cases h : item.item_type = "fridge"
  · cases hz : calculateFridgeDoorZone (Placement.mk item c rot) <;>
      simp [h, hz, List.filterMap_cons]
  · have hz : calculateFridgeDoorZone (Placement.mk item c rot) = none := by
      simp [calculateFridgeDoorZone, h]
    simp [h, hz, List.filterMap_cons]

theorem mem_validPositionsFor {G : GeomKernel} {boundary : Polygon}
    {walls : List Seg} {dz : Option Polygon} {placed zones : List Polygon}
    {item : Item} {x : ℚ × Pt × ℕ}
    (h : x ∈ validPositionsFor G boundary walls dz placed zones item) :
    isValidPlacement G boundary dz placed zones x.2.1 item x.2.2 = true := by
  unfold validPositionsFor at h
  obtain ⟨cr, hmem, hcr⟩ := List.mem_filterMap.mp h
  by_cases hv : isValidPlacement G boundary dz placed zones cr.1 item cr.2 = true
  · rw [if_pos hv] at hcr
    obtain rfl : (calculatePositionScore G walls cr.1 item cr.2, cr.1, cr.2) = x :=
      Option.some.inj hcr
    exact hv
  · rw [if_neg hv] at hcr; cases hcr

theorem committedOk_append {G : GeomKernel} {boundary : Polygon}
    {dz : Option Polygon} {ps : List Placement} {pl : Placement}
    (hok : committedOk G boundary dz ps)
    (h1 : G.containsPoly boundary (rectOf pl) = true)
    (h2 : ∀ z, dz = some z → G.intersects (rectOf pl) z = false)
    (h3 : ∀ a ∈ ps, G.intersects (rectOf pl) (rectOf a) = false)
    (h4 : ∀ a ∈ ps, ∀ z, calculateFridgeDoorZone a = some z →
      G.intersects (rectOf pl) z = false) :
    committedOk G boundary dz (ps ++ [pl]) := by
  obtain ⟨c1, c2, c3, c4⟩ := hok
  refine ⟨?_, ?_, ?_, ?_⟩
  · intro q hq
    rcases List.mem_append.mp hq with hh | hh
    · exact c1 q hh
    · rw [List.mem_singleton.mp hh]; exact h1
  · intro q hq
    rcases List.mem_append.mp hq with hh | hh
    · exact c2 q hh
    · rw [List.mem_singleton.mp hh]; exact h2
  · rw [List.pairwise_append]
    refine ⟨c3, by simp, fun a ha b hb => ?_⟩
    rw [List.mem_singleton.mp hb]; exact h3 a ha
  · rw [List.pairwise_append]
    refine ⟨c4, by simp, fun a ha b hb => ?_⟩
    rw [List.mem_singleton.mp hb]; exact h4 a ha

theorem solveLoop_committedOk (G : GeomKernel) (boundary : Polygon)
    (walls : List Seg) (dz : Option Polygon) :
    ∀ (items : List Item) (ps : List Placement),
      committedOk G boundary dz ps →
      committedOk G boundary dz
        (solveLoop G boundary walls dz items ps (ps.map rectOf)
          (ps.filterMap calculateFridgeDoorZone)).placements := by
  intro items
  induction items with
  | nil => intro ps h; simpa [solveLoop] using h
  | cons item rest ih =>
      intro ps h
      rw [solveLoop]
      cases hvp : validPositionsFor G boundary walls dz (ps.map rectOf)
          (ps.filterMap calculateFridgeDoorZone) item with
      | nil => simpa using h
      | cons v vs =>
          simp only []
          set best := selectBest v vs with hbest
          have hmem : best ∈ validPositionsFor G boundary walls dz (ps.map rectOf)
              (ps.filterMap calculateFridgeDoorZone) item := by
            rw [hvp]; exact selectBest_mem v vs
          have hval := mem_validPositionsFor hmem
          obtain ⟨g1, g2, g3, g4⟩ := isValidPlacement_eq_true hval
          have hrect : rectOf (Placement.mk item best.2.1 best.2.2) =
              createRectangle best.2.1 item.length item.width best.2.2 := rfl
          have e1 : ps.map rectOf ++
              [createRectangle best.2.1 item.length item.width best.2.2] =
              (ps ++ [Placement.mk item best.2.1 best.2.2]).map rectOf := by
            rw [List.map_append]; rfl
          have e2 : ps.filterMap calculateFridgeDoorZone ++
              (if item.item_type = "fridge" then
                (match calculateFridgeDoorZone (Placement.mk item best.2.1 best.2.2) with
                 | some z => [z]
                 | none => [])
               else ([] : List Polygon)) =
              (ps ++ [Placement.mk item best.2.1 best.2.2]).filterMap
                calculateFridgeDoorZone := by
            rw [List.filterMap_append, fridgeZoneAppend]
          rw [e1, e2]
          refine ih (ps ++ [Placement.mk item best.2.1 best.2.2]) ?_
          refine committedOk_append h (hrect ▸ g1) (fun z hz => hrect ▸ g2 z hz)
            (fun a ha => ?_) (fun a ha z hz => ?_)
          · exact hrect ▸ g3 (rectOf a) (List.mem_map_of_mem rectOf ha)
          · exact hrect ▸ g4 z (List.mem_filterMap.mpr ⟨a, ha, hz⟩)

theorem solveLoop_shape (G : GeomKernel) (boundary : Polygon)
    (walls : List Seg) (dz : Option Polygon) :
    ∀ (items : List Item) (ps : List Placement) (r : SolveResult),
      solveLoop G boundary walls dz items ps (ps.map rectOf)
        (ps.filterMap calculateFridgeDoorZone) = r →
      ∃ newPs : List Placement,
        r.placements = ps ++ newPs ∧
        newPs.map (fun p => p.item) = items.take newPs.length ∧
        (r.feasible = true → newPs.length = items.length ∧ r.message = none) ∧
        (r.feasible = false →
          ∃ it, items[newPs.length]? = some it ∧
            r.message = some ("无法摆放物品: " ++ it.name) ∧
            validPositionsFor G boundary walls dz (r.placements.map rectOf)
              (r.placements.filterMap calculateFridgeDoorZone) it = []) := by
  intro items
  induction items with
  | nil =>
      intro ps r hr
      subst hr
      exact ⟨[], by simp [solveLoop], by simp, by simp [solveLoop], by simp [solveLoop]⟩
  | cons item rest ih =>
      intro ps r hr
      rw [solveLoop] at hr
      cases hvp : validPositionsFor G boundary walls dz (ps.map rectOf)
          (ps.filterMap calculateFridgeDoorZone) item with
      | nil =>
          rw [hvp] at hr
          have hr2 : SolveResult.mk false ps (some ("无法摆放物品: " ++ item.name)) = r := hr
          subst hr2
          refine ⟨[], by simp, by simp, by simp, fun _ => ⟨item, by simp, by simp, ?_⟩⟩
          simpa using hvp
      | cons v vs =>
          rw [hvp] at hr
          have hr2 : solveLoop G boundary walls dz rest
              (ps ++ [Placement.mk item (selectBest v vs).2.1 (selectBest v vs).2.2])
              (ps.map rectOf ++
                [createRectangle (selectBest v vs).2.1 item.length item.width
                  (selectBest v vs).2.2])
              (ps.filterMap calculateFridgeDoorZone ++
                (if item.item_type = "fridge" then
                  (match calculateFridgeDoorZone (Placement.mk item
                      (selectBest v vs).2.1 (selectBest v vs).2.2) with
                   | some z => [z]
                   | none => [])
                 else ([] : List Polygon))) = r := hr
          have e1 : ps.map rectOf ++
              [createRectangle (selectBest v vs).2.1 item.length item.width
                (selectBest v vs).2.2] =
              (ps ++ [Placement.mk item (selectBest v vs).2.1
                (selectBest v vs).2.2]).map rectOf := by
            rw [List.map_append]; rfl
          have e2 : ps.filterMap calculateFridgeDoorZone ++
              (if item.item_type = "fridge" then
                (match calculateFridgeDoorZone (Placement.mk item
                    (selectBest v vs).2.1 (selectBest v vs).2.2) with
                 | some z => [z]
                 | none => [])
               else ([] : List Polygon)) =
              (ps ++ [Placement.mk item (selectBest v vs).2.1
                (selectBest v vs).2.2]).filterMap calculateFridgeDoorZone := by
            rw [List.filterMap_append, fridgeZoneAppend]
          rw [e1, e2] at hr2
          obtain ⟨newPs, q1, q2, q3, q4⟩ :=
            ih (ps ++ [Placement.mk item (selectBest v vs).2.1
              (selectBest v vs).2.2]) r hr2
          refine ⟨Placement.mk item (selectBest v vs).2.1
            (selectBest v vs).2.2 :: newPs, ?_, ?_, ?_, ?_⟩
          · rw [q1, List.append_assoc]; rfl
          · simp only [List.map_cons, List.length_cons, List.take_succ_cons, q2]
          · intro hf
            obtain ⟨hl, hm⟩ := q3 hf
            exact ⟨by simp [hl], hm⟩
          · intro hf
            obtain ⟨it, hi, hm, hv⟩ := q4 hf
            exact ⟨it, by simpa using hi, hm, hv⟩

theorem solveP_ok {G : GeomKernel} {boundary : Polygon} {door : List Pt}
    {isOpenInward : Bool} {itemsDict : List (String × ℚ × ℚ)} {r : SolveResult}
    (h : solveP G boundary door isOpenInward itemsDict = Except.ok r) :
    ∃ dz, calculateDoorZone G door isOpenInward = Except.ok dz ∧
      solveLoop G boundary (extractWalls boundary) dz (parseItems itemsDict)
        [] (([] : List Placement).map rectOf)
        (([] : List Placement).filterMap calculateFridgeDoorZone) = r := by
  unfold solveP at h
  cases hc : calculateDoorZone G door isOpenInward with
  | error e => rw [hc] at h; cases h
  | ok dz =>
      rw [hc] at h
      exact ⟨dz, rfl, Except.ok.inj h⟩

/-- C1: every placement committed by solve has its occupied rectangle (length
along x and width along y at rotation 0, swapped at rotation 90, centred on
the chosen centre) fully contained in the room boundary polygon, containment
being the geometry-kernel relation that the source delegates to shapely. -/
theorem solve_containment (G : GeomKernel) (boundary : Polygon) (door : List Pt)
    (isOpenInward : Bool) (itemsDict : List (String × ℚ × ℚ)) (r : SolveResult)
    (h : solveP G boundary door isOpenInward itemsDict = Except.ok r) :
    ∀ pl ∈ r.placements, G.containsPoly boundary (rectOf pl) = true := by
  obtain ⟨dz, hdz, hloop⟩ := solveP_ok h
  have hok := solveLoop_committedOk G boundary (extractWalls boundary) dz
    (parseItems itemsDict) [] (by simp [committedOk])
  rw [hloop] at hok
  exact hok.1

/-- C2: the rectangles of any two distinct placements committed by solve do
not intersect, for any geometry kernel whose intersection test is symmetric
(as the shapely one is). -/
theorem solve_non_overlap (G : GeomKernel) (boundary : Polygon) (door : List Pt)
    (isOpenInward : Bool) (itemsDict : List (String × ℚ × ℚ)) (r : SolveResult)
    (hsym : ∀ a b, G.intersects a b = G.intersects b a)
    (h : solveP G boundary door isOpenInward itemsDict = Except.ok r) :
    ∀ (i j : Fin r.placements.length), i ≠ j →
      G.intersects (rectOf (r.placements.get i))
        (rectOf (r.placements.get j)) = false := by
  obtain ⟨dz, hdz, hloop⟩ := solveP_ok h
  have hok := solveLoop_committedOk G boundary (extractWalls boundary) dz
    (parseItems itemsDict) [] (by simp [committedOk])
  rw [hloop] at hok
  have hpw := List.pairwise_iff_get.mp hok.2.2.1
  intro i j hne
  rcases hne.lt_or_lt with hij | hij
  · rw [hsym]
    exact hpw i j hij
  · exact hpw j i hij

/-- C3: no committed rectangle intersects the door zone when one exists, nor
any fridge clearance zone of a previously committed fridge; the index
ordering makes the causality explicit: a fridge's own zone is only checked
against strictly later placements, never against the fridge itself. -/
theorem solve_zone_avoidance (G : GeomKernel) (boundary : Polygon)
    (door : List Pt) (isOpenInward : Bool)
    (itemsDict : List (String × ℚ × ℚ)) (r : SolveResult)
    (h : solveP G boundary door isOpenInward itemsDict = Except.ok r) :
    (∀ pl ∈ r.placements, ∀ z,
      calculateDoorZone G door isOpenInward = Except.ok (some z) →
      G.intersects (rectOf pl) z = false) ∧
    (∀ (i j : Fin r.placements.length), i < j → ∀ z,
      calculateFridgeDoorZone (r.placements.get i) = some z →
      G.intersects (rectOf (r.placements.get j)) z = false) := by
  obtain ⟨dz, hdz, hloop⟩ := solveP_ok h
  have hok := solveLoop_committedOk G boundary (extractWalls boundary) dz
    (parseItems itemsDict) [] (by simp [committedOk])
  rw [hloop] at hok
  constructor
  · intro pl hpl z hz
    rw [hz] at hdz
    exact hok.2.1 pl hpl z (Except.ok.inj hdz).symm
  · intro i j hij z hz
    exact List.pairwise_iff_get.mp hok.2.2.2 i j hij z hz

/-- C4: when solve reports infeasibility the committed placements are exactly
those committed before the failing item in commit order, the message names
the first item that could not be placed (the item of the sorted list at the
index equal to the number of commits), and that item indeed has no valid
scored candidate in the final obstacle state; the message is present only in
the infeasible outcome, and a feasible run commits every sorted item and
carries no message. -/
theorem solve_infeasible_outcome (G : GeomKernel) (boundary : Polygon)
    (door : List Pt) (isOpenInward : Bool)
    (itemsDict : List (String × ℚ × ℚ)) (r : SolveResult)
    (h : solveP G boundary door isOpenInward itemsDict = Except.ok r) :
    (r.feasible = true → r.message = none ∧
      r.placements.map (fun p => p.item) = parseItems itemsDict) ∧
    (r.feasible = false →
      ∃ it, (parseItems itemsDict)[r.placements.length]? = some it ∧
        r.message = some ("无法摆放物品: " ++ it.name) ∧
        r.placements.map (fun p => p.item) =
          (parseItems itemsDict).take r.placements.length ∧
        ∀ dzv, calculateDoorZone G door isOpenInward = Except.ok dzv →
          validPositionsFor G boundary (extractWalls boundary) dzv
            (r.placements.map rectOf)
            (r.placements.filterMap calculateFridgeDoorZone) it = []) := by
  obtain ⟨dz, hdz, hloop⟩ := solveP_ok h
  obtain ⟨newPs, q1, q2, q3, q4⟩ :=
    solveLoop_shape G boundary (extractWalls boundary) dz
      (parseItems itemsDict) [] r hloop
  have hnew : newPs = r.placements := by simpa using q1.symm
  subst hnew
  constructor
  · intro hf
    obtain ⟨hl, hm⟩ := q3 hf
    refine ⟨hm, ?_⟩
    rw [q2, hl, List.take_length]
  · intro hf
    obtain ⟨it, hi, hm, hv⟩ := q4 hf
    refine ⟨it, hi, hm, q2, ?_⟩
    intro dzv hdzv
    have : dzv = dz := (Except.ok.inj (hdz ▸ hdzv)).symm
    rw [this]
    exact hv

/-- C5: the item list is sorted once, before any placement is attempted, in
ascending order of the key tuple (category priority, minus area) with the
priority table fridge 0, iceMaker 1, shelf 2, overShelf 3, unknown 4 and the
category read off the name prefix; the sorted list is a permutation of the
parsed input items; and the committed placements are always an initial
prefix of the sorted list in commit order, so of two items of different
categories the one with the smaller category index is attempted and
committed first. -/
theorem solve_priority_order (G : GeomKernel) (boundary : Polygon)
    (door : List Pt) (isOpenInward : Bool)
    (itemsDict : List (String × ℚ × ℚ)) (r : SolveResult)
    (h : solveP G boundary door isOpenInward itemsDict = Except.ok r) :
    (priorityOf ("fridge") = 0 ∧ priorityOf ("iceMaker") = 1 ∧
      priorityOf ("shelf") = 2 ∧ priorityOf ("overShelf") = 3 ∧
      priorityOf ("unknown") = 4) ∧
    List.Pairwise (fun a b : Item =>
      priorityOf a.item_type < priorityOf b.item_type ∨
        (priorityOf a.item_type = priorityOf b.item_type ∧
          b.get_area ≤ a.get_area)) (parseItems itemsDict) ∧
    (parseItems itemsDict).Perm
      (itemsDict.map (fun e => Item.mk e.1 e.2.1 e.2.2 (itemTypeOf e.1))) ∧
    r.placements.map (fun p => p.item) =
      (parseItems itemsDict).take r.placements.length := by
  refine ⟨⟨rfl, rfl, rfl, rfl, rfl⟩, ?_, ?_, ?_⟩
  · have hs : List.Pairwise sortRel (parseItems itemsDict) :=
      List.sorted_insertionSort sortRel _
    exact hs.imp (fun hab => hab.imp id (fun hx => ⟨hx.1, neg_le_neg_iff.mp hx.2⟩))
  · exact List.perm_insertionSort sortRel _
  · obtain ⟨dz, hdz, hloop⟩ := solveP_ok h
    obtain ⟨newPs, q1, q2, _, _⟩ :=
      solveLoop_shape G boundary (extractWalls boundary) dz
        (parseItems itemsDict) [] r hloop
    have hnew : newPs = r.placements := by simpa using q1.symm
    subst hnew
    exact q2

/-- C9: solve is deterministic; two runs on the same boundary, door, swing
flag and item catalog produce the same result, hence the same feasible flag,
the same placements with identical items, centres, rotations and order, and
the same message. -/
theorem solve_deterministic (G : GeomKernel) (boundary : Polygon)
    (door : List Pt) (isOpenInward : Bool)
    (itemsDict : List (String × ℚ × ℚ)) (r1 r2 : Except Unit SolveResult)
    (h1 : solveP G boundary door isOpenInward itemsDict = r1)
    (h2 : solveP G boundary door isOpenInward itemsDict = r2) : r1 = r2 := by
  rw [← h1, ← h2]

theorem foldl_score_pair (G : GeomKernel) (rect : Polygon) (walls : List Seg)
    (t : ℕ) (m : ℚ) :
    walls.foldl (fun (a : ℕ × Option ℚ) w =>
      ((if G.distToSeg rect w < 10 then a.1 + 1 else a.1),
        some (match a.2 with
              | none => G.distToSeg rect w
              | some m0 => min m0 (G.distToSeg rect w)))) (t, some m) =
    (t + ((walls.map (fun w => G.distToSeg rect w)).filter
        (fun d => decide (d < 10))).length,
      some ((walls.map (fun w => G.distToSeg rect w)).foldl min m)) := by
  induction walls generalizing t m with
  | nil => simp
  | cons w rest ih =>
      simp only [List.foldl_cons, List.map_cons, List.filter_cons]
      rw [ih]
      by_cases hd : G.distToSeg rect w < 10 <;> (simp [hd]; try omega)

theorem foldl_score_none (G : GeomKernel) (rect : Polygon) (walls : List Seg)
    (hw : walls ≠ []) :
    walls.foldl (fun (a : ℕ × Option ℚ) w =>
      ((if G.distToSeg rect w < 10 then a.1 + 1 else a.1),
        some (match a.2 with
              | none => G.distToSeg rect w
              | some m0 => min m0 (G.distToSeg rect w)))) ((0 : ℕ), (none : Option ℚ)) =
    (((walls.map (fun w => G.distToSeg rect w)).filter
        (fun d => decide (d < 10))).length,
      some (listMinD (walls.map (fun w => G.distToSeg rect w)) 0)) := by
  cases walls with
  | nil => cases hw rfl
  | cons w rest =>
      simp only [List.foldl_cons]
      rw [foldl_score_pair]
      simp only [List.map_cons, List.filter_cons, listMinD]
      by_cases hd : G.distToSeg rect w < 10 <;> (simp [hd]; try omega)

theorem score_eq (G : GeomKernel) (walls : List Seg) (center : Pt)
    (item : Item) (rotation : ℕ) (hw : walls ≠ []) :
    calculatePositionScore G walls center item rotation =
      (touchingWallCount G walls center item rotation : ℚ) * 10000 -
        minWallDistance G walls center item rotation := by
  simp only [calculatePositionScore, touchingWallCount, minWallDistance]
  rw [foldl_score_none G _ walls hw]

theorem foldl_min_mem (r : List ℚ) (a : ℚ) : r.foldl min a ∈ a :: r := by
  induction r generalizing a with
  | nil => simp
  | cons b t ih =>
      rw [List.foldl_cons]
      rcases List.mem_cons.mp (ih (min a b)) with h | h
      · rcases min_choice a b with hc | hc <;> rw [h, hc] <;> simp
      · simp [h]

theorem foldl_min_le (r : List ℚ) : ∀ (a d : ℚ), d ∈ a :: r → r.foldl min a ≤ d := by
  induction r with
  | nil =>
      intro a d hd
      simp at hd
      simp [hd]
  | cons b t ih =>
      intro a d hd
      rw [List.foldl_cons]
      rcases List.mem_cons.mp hd with h | h
      · rw [h]
        exact le_trans (ih (min a b) (min a b) (by simp)) (min_le_left a b)
      · rcases List.mem_cons.mp h with h2 | h2
        · rw [h2]
          exact le_trans (ih (min a b) (min a b) (by simp)) (min_le_right a b)
        · exact ih (min a b) d (List.mem_cons_of_mem _ h2)

theorem listMinD_mem (l : List ℚ) (hl : l ≠ []) : listMinD l 0 ∈ l := by
  cases l with
  | nil => cases hl rfl
  | cons a r => exact foldl_min_mem r a

theorem listMinD_le (l : List ℚ) (d : ℚ) (hd : d ∈ l) : listMinD l 0 ≤ d := by
  cases l with
  | nil => cases hd
  | cons a r => exact foldl_min_le r a d hd

/-- C6: the position score of every candidate pose equals the touching-wall
count times 10000 minus the minimum wall distance, and (for a geometry
kernel with nonnegative distances, as the kernel contract requires) a
candidate pose touching strictly more walls always outscores one touching
fewer, whatever the wall distances involved. -/
theorem score_formula_dominance (G : GeomKernel) (walls : List Seg)
    (c1 c2 : Pt) (item1 item2 : Item) (rot1 rot2 : ℕ) (hw : walls ≠ [])
    (hd : ∀ (rect : Polygon) (w : Seg), 0 ≤ G.distToSeg rect w) :
    calculatePositionScore G walls c1 item1 rot1 =
      (touchingWallCount G walls c1 item1 rot1 : ℚ) * 10000 -
        minWallDistance G walls c1 item1 rot1 ∧
    (touchingWallCount G walls c2 item2 rot2 <
        touchingWallCount G walls c1 item1 rot1 →
      calculatePositionScore G walls c2 item2 rot2 <
        calculatePositionScore G walls c1 item1 rot1) := by
  refine ⟨score_eq G walls c1 item1 rot1 hw, fun hlt => ?_⟩
  rw [score_eq G walls c1 item1 rot1 hw, score_eq G walls c2 item2 rot2 hw]
  have hm2 : 0 ≤ minWallDistance G walls c2 item2 rot2 := by
    unfold minWallDistance
    have hne : walls.map (fun w =>
        G.distToSeg (createRectangle c2 item2.length item2.width rot2) w) ≠ [] := by
      simpa using hw
    obtain ⟨w, hwmem, hwd⟩ := List.mem_map.mp (listMinD_mem _ hne)
    rw [← hwd]
    exact hd _ w
  have hm1 : minWallDistance G walls c1 item1 rot1 < 10 := by
    have hpos : 0 < touchingWallCount G walls c1 item1 rot1 :=
      Nat.lt_of_le_of_lt (Nat.zero_le _) hlt
    unfold touchingWallCount at hpos
    unfold minWallDistance
    set ds1 := walls.map (fun w =>
      G.distToSeg (createRectangle c1 item1.length item1.width rot1) w) with hds1
    have hfne : ds1.filter (fun d => decide (d < 10)) ≠ [] :=
      List.length_pos.mp hpos
    obtain ⟨d, hdm⟩ := List.exists_mem_of_ne_nil _ hfne
    have hdd := List.mem_filter.mp hdm
    exact lt_of_le_of_lt (listMinD_le ds1 d hdd.1) (of_decide_eq_true hdd.2)
  have hc : (touchingWallCount G walls c2 item2 rot2 : ℚ) + 1 ≤
      (touchingWallCount G walls c1 item1 rot1 : ℚ) := by
    exact_mod_cast hlt
  linarith

/-- C8: the fridge clearance zone is none for every non-fridge placement;
for a fridge the clearance depth is exactly 1.0 times the width, and the
zone is the rectangle attached at x = cx + length/2 extending to
cx + length/2 + width over the y-span of the fridge at rotation 0, and the
rectangle attached at y = cy + width/2 extending to cy + width/2 + width
over the x-span cx - length/2 .. cx + length/2 at rotation 90. -/
theorem fridgeZone_shape (pl : Placement) :
    (pl.item.item_type ≠ "fridge" → calculateFridgeDoorZone pl = none) ∧
    (pl.item.item_type = "fridge" →
      (pl.rotation = 0 → calculateFridgeDoorZone pl =
        some (rectFromBounds (pl.center.1 + pl.item.length / 2)
          (pl.center.1 + pl.item.length / 2 + pl.item.width)
          (pl.center.2 - pl.item.width / 2)
          (pl.center.2 + pl.item.width / 2))) ∧
      (pl.rotation = 90 → calculateFridgeDoorZone pl =
        some (rectFromBounds (pl.center.1 - pl.item.length / 2)
          (pl.center.1 + pl.item.length / 2)
          (pl.center.2 + pl.item.width / 2)
          (pl.center.2 + pl.item.width / 2 + pl.item.width)))) := by
  refine ⟨fun h => by simp [calculateFridgeDoorZone, h],
    fun h => ⟨fun hr => ?_, fun hr => ?_⟩⟩
  · simp [calculateFridgeDoorZone, h, hr, rectFromBounds, mul_one]
  · simp [calculateFridgeDoorZone, h, hr, rectFromBounds, mul_one]

theorem boxKernel_intersects_symm (a b : Polygon) :
    boxKernel.intersects a b = boxKernel.intersects b a := by
  show decide _ = decide _
  rw [decide_eq_decide]
  constructor <;> rintro ⟨h1, h2, h3, h4, h5, h6⟩ <;> exact ⟨h2, h1, h4, h3, h6, h5⟩

theorem boxKernel_dist_nonneg (a : Polygon) (w : Seg) :
    0 ≤ boxKernel.distToSeg a w :=
  le_trans (le_max_left 0 _) (le_max_left _ _)

/-- C7 amended: the door-zone computation returns none exactly for an absent
door or a door list with fewer than two points by count; a two-point door
whose first two points coincide triggers, under an inward swing, the division
by the zero door width (a ZeroDivisionError in the source) instead of
returning none, while every other two-point door yields a zone. -/
theorem doorZone_amended (G : GeomKernel) (door : List Pt) (isOpenInward : Bool) :
    (door.length < 2 → calculateDoorZone G door isOpenInward = Except.ok none) ∧
    (∀ p1 p2 rest, door = p1 :: p2 :: rest →
      (isOpenInward = true → p1 = p2 →
        calculateDoorZone G door isOpenInward = Except.error ()) ∧
      ((p1 ≠ p2 ∨ isOpenInward = false) →
        ∃ z, calculateDoorZone G door isOpenInward = Except.ok (some z))) := by
  constructor
  · intro hlen
    cases door with
    | nil => rfl
    | cons a t =>
        cases t with
        | nil => rfl
        | cons b t2 => simp at hlen; omega
  · intro p1 p2 rest hdoor
    subst hdoor
    constructor
    · intro hin heq
      subst hin
      subst heq
      simp [calculateDoorZone, sub_self]
    · intro hcase
      rcases hcase with hne | hout
      · cases hin : isOpenInward with
        | false =>
            exact ⟨G.bufferSeg (p1, p2) 100, by simp [calculateDoorZone]⟩
        | true =>
            have hc : ¬(p2.1 - p1.1 = 0 ∧ p2.2 - p1.2 = 0) := by
              rintro ⟨h1, h2⟩
              exact hne (Prod.ext (sub_eq_zero.mp h1).symm (sub_eq_zero.mp h2).symm)
            exact ⟨[p1, p2, (p2.1 - (p2.2 - p1.2), p2.2 + (p2.1 - p1.1)),
              (p1.1 - (p2.2 - p1.2), p1.2 + (p2.1 - p1.1))],
              by simp [calculateDoorZone, hc]⟩
      · subst hout
        exact ⟨G.bufferSeg (p1, p2) 100, by simp [calculateDoorZone]⟩

unseal Rat.add Rat.sub Rat.mul Rat.inv in
/-- C7 counterexample: for the degenerate two-point door with coinciding
points, an inward swing makes the door-zone computation divide by the zero
door width, so it fails instead of evaluating totally to none. -/
theorem doorZone_degenerate_counterexample :
    calculateDoorZone boxKernel [((5 : ℚ), (5 : ℚ)), ((5 : ℚ), (5 : ℚ))] true =
      Except.error () ∧
    calculateDoorZone boxKernel [((5 : ℚ), (5 : ℚ)), ((5 : ℚ), (5 : ℚ))] true ≠
      Except.ok none := by
  refine ⟨rfl, fun h => ?_⟩
  exact Except.noConfusion
    ((show calculateDoorZone boxKernel [((5 : ℚ), (5 : ℚ)), ((5 : ℚ), (5 : ℚ))] true =
        Except.error () from rfl).symm.trans h)

/-- C10 amended: with an empty item catalog, solve returns feasible true, an
empty placements list and no message, for every boundary of the data model
(at least three vertices) and every door and swing flag for which the
door-zone computation does not fail (that is, every door except an
inward-opening one with two coinciding points). -/
theorem empty_items_amended (G : GeomKernel) (boundary : Polygon)
    (door : List Pt) (isOpenInward : Bool) (_hb : 3 ≤ boundary.length)
    (hdz : ∀ e, calculateDoorZone G door isOpenInward ≠ Except.error e) :
    solveP G boundary door isOpenInward [] =
      Except.ok (SolveResult.mk true [] none) := by
  unfold solveP
  cases hc : calculateDoorZone G door isOpenInward with
  | error e => exact absurd hc (hdz e)
  | ok dz => rfl

unseal Rat.add Rat.sub Rat.mul Rat.inv in
/-- C10 counterexample: with an empty catalog but an inward-opening door
whose two points coincide, solve fails with the division by zero raised
while the solver is constructed, rather than returning a feasible empty
result. -/
theorem empty_items_counterexample :
    solveP boxKernel [((0 : ℚ), (0 : ℚ)), (40, 0), (40, 40), (0, 40)]
      [((5 : ℚ), (5 : ℚ)), ((5 : ℚ), (5 : ℚ))] true [] = Except.error () ∧
    solveP boxKernel [((0 : ℚ), (0 : ℚ)), (40, 0), (40, 40), (0, 40)]
      [((5 : ℚ), (5 : ℚ)), ((5 : ℚ), (5 : ℚ))] true [] ≠
      Except.ok (SolveResult.mk true [] none) := by
  refine ⟨rfl, fun h => ?_⟩
  exact Except.noConfusion
    ((show solveP boxKernel [((0 : ℚ), (0 : ℚ)), (40, 0), (40, 40), (0, 40)]
        [((5 : ℚ), (5 : ℚ)), ((5 : ℚ), (5 : ℚ))] true [] =
        Except.error () from rfl).symm.trans h)

set_option maxRecDepth 8000 in
unseal Rat.add Rat.sub Rat.mul Rat.inv in
theorem wRun_eq : solveP boxKernel wBoundary wDoor true wItems =
    Except.ok wResult := rfl

set_option maxRecDepth 8000 in
unseal Rat.add Rat.sub Rat.mul Rat.inv in
theorem wRun2_eq : solveP boxKernel wBoundary wDoor true wItems2 =
    Except.ok wResult2 := rfl

/-- C1 witness: in the concrete run both hypotheses hold and the committed
fridge rectangle is contained in the room. -/
theorem solve_containment_witness :
    boxKernel.containsPoly wBoundary (rectOf wPl1) = true := by
  have h := solve_containment boxKernel wBoundary wDoor true wItems wResult wRun_eq
  exact h wPl1 (by simp [wResult])

/-- C2 witness: the two rectangles committed in the concrete run do not
intersect. -/
theorem solve_non_overlap_witness :
    boxKernel.intersects (rectOf wPl1) (rectOf wPl2) = false := by
  have h := solve_non_overlap boxKernel wBoundary wDoor true wItems wResult
    boxKernel_intersects_symm wRun_eq
  exact h ⟨0, by simp [wResult]⟩ ⟨1, by simp [wResult]⟩ (by decide)

set_option maxRecDepth 2000 in
unseal Rat.add Rat.sub Rat.mul Rat.inv in
/-- C3 witness: in the concrete run the fridge rectangle avoids the door
zone and the shelf, committed after the fridge, avoids the fridge clearance
zone. -/
theorem solve_zone_avoidance_witness :
    boxKernel.intersects (rectOf wPl1) wDoorZone = false ∧
    boxKernel.intersects (rectOf wPl2) wFridgeZone = false := by
  have h := solve_zone_avoidance boxKernel wBoundary wDoor true wItems wResult wRun_eq
  refine ⟨h.1 wPl1 (by simp [wResult]) wDoorZone rfl, ?_⟩
  exact h.2 ⟨0, Nat.succ_pos 1⟩ ⟨1, Nat.lt_succ_self 1⟩ (by decide) wFridgeZone rfl

/-- C4 witness: the infeasible concrete run names the oversized shelf in its
message. -/
theorem solve_infeasible_outcome_witness :
    wResult2.message = some ("无法摆放物品: shelf1") := by
  have h := solve_infeasible_outcome boxKernel wBoundary wDoor true wItems2
    wResult2 wRun2_eq
  obtain ⟨it, hi, hm, _, _⟩ := h.2 rfl
  have h0 : (parseItems wItems2)[wResult2.placements.length]? =
      some (Item.mk ("shelf1") 50 50 ("shelf")) := rfl
  rw [h0] at hi
  rw [(Option.some.inj hi).symm] at hm
  exact hm

/-- C5 witness: in the concrete run the committed items are the initial
prefix of the sorted item list. -/
theorem solve_priority_order_witness :
    wResult.placements.map (fun p => p.item) =
      (parseItems wItems).take wResult.placements.length :=
  (solve_priority_order boxKernel wBoundary wDoor true wItems wResult wRun_eq).2.2.2

unseal Rat.add Rat.sub Rat.mul Rat.inv in
/-- C6 witness: in a 40 by 40 room a corner pose of the shelf touches two
walls and outscores a central pose touching none. -/
theorem score_formula_dominance_witness :
    calculatePositionScore boxKernel wWalls (20, 20) wShelf8 0 <
      calculatePositionScore boxKernel wWalls (4, 4) wShelf8 0 := by
  have h := score_formula_dominance boxKernel wWalls (4, 4) (20, 20) wShelf8
    wShelf8 0 0 (by decide) boxKernel_dist_nonneg
  exact h.2 (by decide)

unseal Rat.add Rat.sub Rat.mul Rat.inv in
/-- C7 amended witness: a proper two-point door yields a zone under an
inward swing and a one-point door yields none. -/
theorem doorZone_amended_witness :
    (calculateDoorZone boxKernel wDoor true).isOk = true ∧
    calculateDoorZone boxKernel [((4 : ℚ), (0 : ℚ))] true = Except.ok none := by
  constructor
  · obtain ⟨z, hz⟩ := ((doorZone_amended boxKernel wDoor true).2 (4, 0) (6, 0) []
      rfl).2 (Or.inl (by decide))
    rw [hz]
    rfl
  · exact (doorZone_amended boxKernel [((4 : ℚ), (0 : ℚ))] true).1 (by decide)

unseal Rat.add Rat.sub Rat.mul Rat.inv in
/-- C8 witness: the clearance zone of the committed witness fridge at
rotation 0 is the rectangle attached to its right edge with depth equal to
its width. -/
theorem fridgeZone_shape_witness :
    calculateFridgeDoorZone wPl1 = some (rectFromBounds 10 14 3 7) :=
  ((fridgeZone_shape wPl1).2 rfl).1 rfl

/-- C9 witness: two runs of the concrete scenario agree. -/
theorem solve_deterministic_witness :
    (Except.ok wResult : Except Unit SolveResult) = Except.ok wResult :=
  solve_deterministic boxKernel wBoundary wDoor true wItems
    (Except.ok wResult) (Except.ok wResult) wRun_eq wRun_eq

unseal Rat.add Rat.sub Rat.mul Rat.inv in
/-- C10 amended witness: the witness room and door with an empty catalog
yield the feasible empty result. -/
theorem empty_items_amended_witness :
    solveP boxKernel wBoundary wDoor true [] =
      Except.ok (SolveResult.mk true [] none) := by
  refine empty_items_amended boxKernel wBoundary wDoor true (by decide) ?_
  intro e h
  exact Except.noConfusion
    ((show calculateDoorZone boxKernel wDoor true = Except.ok (some wDoorZone)
      from rfl).symm.trans h)
